import Mathlib

/-!
Verification of the metadata-filtering logic of the
`agent_with_metadata_filtering` notebook: the `Entity` / `ExtractedEntities`
data model, the `remove_duplicates` validator, and the
`construct_metadata_filter` filter builder, shallowly embedded in Lean.
-/

/-- The `Entity` pydantic model: three `Optional[str]` fields. -/
structure Entity where
  employee_name : Option String
  document_type : Option String
  role : Option String
deriving DecidableEq, Repr

/-- The `ExtractedEntities` pydantic model: a list of entities. -/
structure ExtractedEntities where
  entities : List Entity
deriving DecidableEq, Repr

/-- The metadata filter trees produced by the notebook: `equals` leaves
with a key and a value, and `andAll` conjunction nodes. -/
inductive FilterExpression where
  | equals (key value : String) : FilterExpression
  | andAll (sub : List FilterExpression) : FilterExpression

/-- Python truthiness of an `Optional[str]` value: `None` and the empty
string are falsy, every other string is truthy. -/
def pyTruthy : Option String → Bool
  | none => false
  | some s => !(s == "")

/-- Python `x != "unknown"` on an `Optional[str]` value: `None` is not
equal to the string `"unknown"`. -/
def pyNeUnknown : Option String → Bool
  | none => true
  | some s => !(s == "unknown")

/-- The body of `construct_metadata_filter` once the first entity has been
selected: start from an empty `andAll` list, append one `equals` leaf per
field whose value passes `if value and value != "unknown"`, and return the
conjunction unless the list stayed empty (Python list truthiness). -/
def buildFilterFromEntity (entity : Entity) : Option FilterExpression :=
  let mf0 : List FilterExpression := []
  let mf1 := if pyTruthy entity.employee_name && pyNeUnknown entity.employee_name then
      mf0 ++ [FilterExpression.equals "employee_name" (entity.employee_name.getD "")]
    else mf0
  let mf2 := if pyTruthy entity.document_type && pyNeUnknown entity.document_type then
      mf1 ++ [FilterExpression.equals "document_type" (entity.document_type.getD "")]
    else mf1
  let mf3 := if pyTruthy entity.role && pyNeUnknown entity.role then
      mf2 ++ [FilterExpression.equals "role" (entity.role.getD "")]
    else mf2
  if mf3.isEmpty then none else some (FilterExpression.andAll mf3)

/-- `construct_metadata_filter`: `None` for a falsy argument or an empty
entity list, otherwise build the filter from the first entity. -/
def construct_metadata_filter (extracted_entities : Option ExtractedEntities) :
    Option FilterExpression :=
  match extracted_entities with
  | none => none
  | some ee =>
    match ee.entities with
    | [] => none
    | entity :: _ => buildFilterFromEntity entity

/-- Translation of `construct_metadata_filter` with the `entities[0]`
subscript made explicitly fallible, to state that the function never
raises: `.error` marks the place where Python would raise `IndexError`. -/
def construct_metadata_filter_run (extracted_entities : Option ExtractedEntities) :
    Except String (Option FilterExpression) :=
  match extracted_entities with
  | none => Except.ok none
  | some ee =>
    if ee.entities.isEmpty then Except.ok none
    else
      match ee.entities.get? 0 with
      | none => Except.error "IndexError: list index out of range"
      | some entity => Except.ok (buildFilterFromEntity entity)

/-- Spec-side description of the leaf contributed by one field: an
`equals(key, value)` leaf exactly when the field is present with a
non-empty value other than the sentinel `"unknown"`. -/
def specLeaf (key : String) (v : Option String) : List FilterExpression :=
  match v with
  | none => []
  | some s => if s = "" ∨ s = "unknown" then [] else [FilterExpression.equals key s]

/-- Spec-side description of the full leaf list of an entity, in the fixed
field order employee_name, document_type, role. -/
def specLeaves (e : Entity) : List FilterExpression :=
  specLeaf "employee_name" e.employee_name ++
    specLeaf "document_type" e.document_type ++ specLeaf "role" e.role

/-- The key of an `equals` leaf (`""` for a conjunction node). -/
def filterKey : FilterExpression → String
  | FilterExpression.equals k _ => k
  | FilterExpression.andAll _ => ""

/-- The list of sub-expressions of the conjunction produced by
`construct_metadata_filter` (empty when there is no filter). -/
def outSubs (x : Option ExtractedEntities) : List FilterExpression :=
  match construct_metadata_filter x with
  | some (FilterExpression.andAll l) => l
  | some f => [f]
  | none => []

theorem if_guard_eq_specLeaf (key : String) (v : Option String)
    (pre : List FilterExpression) :
    (if pyTruthy v && pyNeUnknown v then pre ++ [FilterExpression.equals key (v.getD "")]
      else pre) = pre ++ specLeaf key v := by
  cases v with
  | none => simp [pyTruthy, pyNeUnknown, specLeaf]
  | some s =>
    by_cases h1 : s = "" <;> by_cases h2 : s = "unknown" <;>
      simp [pyTruthy, pyNeUnknown, specLeaf, h1, h2]

theorem specLeaf_eq_if (key : String) (v : Option String) :
    specLeaf key v =
      if pyTruthy v && pyNeUnknown v then [FilterExpression.equals key (v.getD "")]
      else [] := by
  simpa using (if_guard_eq_specLeaf key v []).symm

theorem buildFilterFromEntity_char (e : Entity) :
    buildFilterFromEntity e =
      if (specLeaves e).isEmpty then none
      else some (FilterExpression.andAll (specLeaves e)) := by
  unfold buildFilterFromEntity specLeaves
  rw [specLeaf_eq_if, specLeaf_eq_if, specLeaf_eq_if]
  by_cases h1 : (pyTruthy e.employee_name && pyNeUnknown e.employee_name) = true <;>
    by_cases h2 : (pyTruthy e.document_type && pyNeUnknown e.document_type) = true <;>
      by_cases h3 : (pyTruthy e.role && pyNeUnknown e.role) = true <;>
        simp [h1, h2, h3]

theorem construct_metadata_filter_cons (e : Entity) (rest : List Entity) :
    construct_metadata_filter (some ⟨e :: rest⟩) =
      if (specLeaves e).isEmpty then none
      else some (FilterExpression.andAll (specLeaves e)) := by
  simpa [construct_metadata_filter] using buildFilterFromEntity_char e

theorem outSubs_cons (e : Entity) (rest : List Entity) :
    outSubs (some ⟨e :: rest⟩) = specLeaves e := by
  unfold outSubs
  rw [construct_metadata_filter_cons]
  by_cases h : (specLeaves e).isEmpty
  · simp [h, List.isEmpty_iff.mp h]
  · simp [h]

/-- C1, counterexample: the claim demands an `equals` leaf whenever a field
is present and not `"unknown"`, but for a first record with
employee_name present and equal to the empty string the builder emits no
employee_name leaf at all (the output holds only the document_type leaf). -/
theorem claim_C1_counterexample :
    (Entity.mk (some "") (some "finance") none).employee_name.isSome = true ∧
    (Entity.mk (some "") (some "finance") none).employee_name ≠ some "unknown" ∧
    construct_metadata_filter (some ⟨[Entity.mk (some "") (some "finance") none]⟩) =
      some (FilterExpression.andAll [FilterExpression.equals "document_type" "finance"]) :=
  ⟨rfl, by decide, rfl⟩

/-- C1, amended: the output of `construct_metadata_filter` on a non-empty
entity list is exactly the conjunction of one `equals(key, value)` leaf per
field of the first record that is present with a value that is neither
empty nor the sentinel `"unknown"`, in the fixed field order employee_name,
document_type, role (and no filter when no field qualifies). -/
theorem claim_C1_amended (e : Entity) (rest : List Entity) :
    construct_metadata_filter (some ⟨e :: rest⟩) =
      if (specLeaves e).isEmpty then none
      else some (FilterExpression.andAll (specLeaves e)) :=
  construct_metadata_filter_cons e rest

/-- C2: the builder returns either no filter or a conjunction with a
non-empty list of sub-expressions — an empty `andAll` is never produced —
and any input whose first record has every field absent or `"unknown"`
yields no filter. -/
theorem claim_C2 :
    (∀ x : Option ExtractedEntities,
      construct_metadata_filter x = none ∨
        ∃ l, l ≠ [] ∧ construct_metadata_filter x = some (FilterExpression.andAll l)) ∧
    (∀ (e : Entity) (rest : List Entity),
      (e.employee_name = none ∨ e.employee_name = some "unknown") →
      (e.document_type = none ∨ e.document_type = some "unknown") →
      (e.role = none ∨ e.role = some "unknown") →
      construct_metadata_filter (some ⟨e :: rest⟩) = none) := by
  constructor
  · intro x
    match x with
    | none => exact Or.inl rfl
    | some ⟨[]⟩ => exact Or.inl rfl
    | some ⟨e :: rest⟩ =>
      rw [construct_metadata_filter_cons]
      by_cases h : (specLeaves e).isEmpty
      · exact Or.inl (by simp [h])
      · exact Or.inr ⟨specLeaves e, by simpa [List.isEmpty_iff] using h, by simp [h]⟩
  · intro e rest h1 h2 h3
    rw [construct_metadata_filter_cons]
    have l1 : specLeaf "employee_name" e.employee_name = [] := by
      rcases h1 with h | h <;> simp [specLeaf, h]
    have l2 : specLeaf "document_type" e.document_type = [] := by
      rcases h2 with h | h <;> simp [specLeaf, h]
    have l3 : specLeaf "role" e.role = [] := by
      rcases h3 with h | h <;> simp [specLeaf, h]
    simp [specLeaves, l1, l2, l3]

/-- C2, witness at a concrete all-unqualifying record. -/
theorem claim_C2_witness :
    construct_metadata_filter (some ⟨[Entity.mk none (some "unknown") none]⟩) = none :=
  claim_C2.2 (Entity.mk none (some "unknown") none) []
    (Or.inl rfl) (Or.inr rfl) (Or.inl rfl)

/-- C3: a null input and an input with an empty entity list both give no
filter, as ordinary `none` results of the total function. -/
theorem claim_C3 :
    construct_metadata_filter none = none ∧
    ∀ ee : ExtractedEntities, ee.entities = [] →
      construct_metadata_filter (some ee) = none := by
  refine ⟨rfl, fun ee h => ?_⟩
  cases ee with
  | mk entities => cases h; rfl

/-- C3, witness at the concrete empty entity set. -/
theorem claim_C3_witness : construct_metadata_filter (some ⟨[]⟩) = none :=
  claim_C3.2 ⟨[]⟩ rfl

/-- C4: two inputs with the same first record give structurally identical
outputs; the records after the first have no effect on the result. -/
theorem claim_C4 (e : Entity) (rest₁ rest₂ : List Entity) :
    construct_metadata_filter (some ⟨e :: rest₁⟩) =
      construct_metadata_filter (some ⟨e :: rest₂⟩) := rfl

/-- C7: the fallible translation of the builder never reaches the
`IndexError` branch — on every input it returns `ok` of the pure result. -/
theorem claim_C7 (x : Option ExtractedEntities) :
    construct_metadata_filter_run x = Except.ok (construct_metadata_filter x) := by
  match x with
  | none => rfl
  | some ⟨[]⟩ => rfl
  | some ⟨e :: rest⟩ => rfl

theorem map_filterKey_specLeaf (k : String) (v : Option String) :
    (specLeaf k v).map filterKey =
      if pyTruthy v && pyNeUnknown v then [k] else [] := by
  rw [specLeaf_eq_if]
  by_cases h : (pyTruthy v && pyNeUnknown v) = true <;> simp [h, filterKey]

/-- C8: the builder is deterministic — equal inputs give structurally equal
outputs — and the key order of any output conjunction is always a prefix
selection of the fixed sequence employee_name, document_type, role. -/
theorem claim_C8 :
    (∀ x : Option ExtractedEntities,
      construct_metadata_filter x = construct_metadata_filter x) ∧
    (∀ (x : Option ExtractedEntities) (l : List FilterExpression),
      construct_metadata_filter x = some (FilterExpression.andAll l) →
      List.Sublist (l.map filterKey) ["employee_name", "document_type", "role"]) := by
  refine ⟨fun _ => rfl, ?_⟩
  intro x l hx
  match x with
  | none => exact absurd hx (by simp [construct_metadata_filter])
  | some ⟨[]⟩ => exact absurd hx (by simp [construct_metadata_filter])
  | some ⟨e :: rest⟩ =>
    rw [construct_metadata_filter_cons] at hx
    by_cases h : (specLeaves e).isEmpty
    · rw [if_pos h] at hx
      exact absurd hx (by simp)
    · rw [if_neg h] at hx
      have hl : l = specLeaves e := by
        cases hx
        rfl
      subst hl
      unfold specLeaves
      simp only [List.map_append, map_filterKey_specLeaf]
      by_cases h1 : (pyTruthy e.employee_name && pyNeUnknown e.employee_name) = true <;>
        by_cases h2 : (pyTruthy e.document_type && pyNeUnknown e.document_type) = true <;>
          by_cases h3 : (pyTruthy e.role && pyNeUnknown e.role) = true <;>
            simp [h1, h2, h3]

/-- C8, witness at a concrete one-field record. -/
theorem claim_C8_witness :
    List.Sublist ([FilterExpression.equals "employee_name" "Alex"].map filterKey)
      ["employee_name", "document_type", "role"] :=
  claim_C8.2 (some ⟨[Entity.mk (some "Alex") none none]⟩)
    [FilterExpression.equals "employee_name" "Alex"] rfl

theorem cmf_congr_specLeaves (e₁ e₂ : Entity) (rest : List Entity)
    (h : specLeaves e₁ = specLeaves e₂) :
    construct_metadata_filter (some ⟨e₁ :: rest⟩) =
      construct_metadata_filter (some ⟨e₂ :: rest⟩) := by
  rw [construct_metadata_filter_cons, construct_metadata_filter_cons, h]

theorem specLeaf_all (k : String) (v : Option String) (p : FilterExpression → Bool)
    (hp : ∀ s, p (FilterExpression.equals k s) = true) :
    (specLeaf k v).all p = true := by
  rw [specLeaf_eq_if]
  by_cases h : (pyTruthy v && pyNeUnknown v) = true <;> simp [h, hp]

/-- C9: a field holding the empty string is treated exactly like an absent
field and like the sentinel `"unknown"` — replacing any one field by `""`,
`"unknown"`, or `none` leaves the output unchanged — and the output for an
empty-string field contains no `equals` leaf with that field's key. -/
theorem claim_C9 (e : Entity) (rest : List Entity) :
    (construct_metadata_filter (some ⟨{ e with employee_name := some "" } :: rest⟩) =
       construct_metadata_filter (some ⟨{ e with employee_name := none } :: rest⟩) ∧
     construct_metadata_filter (some ⟨{ e with employee_name := some "unknown" } :: rest⟩) =
       construct_metadata_filter (some ⟨{ e with employee_name := none } :: rest⟩) ∧
     (outSubs (some ⟨{ e with employee_name := some "" } :: rest⟩)).all
       (fun f => !(filterKey f == "employee_name")) = true) ∧
    (construct_metadata_filter (some ⟨{ e with document_type := some "" } :: rest⟩) =
       construct_metadata_filter (some ⟨{ e with document_type := none } :: rest⟩) ∧
     construct_metadata_filter (some ⟨{ e with document_type := some "unknown" } :: rest⟩) =
       construct_metadata_filter (some ⟨{ e with document_type := none } :: rest⟩) ∧
     (outSubs (some ⟨{ e with document_type := some "" } :: rest⟩)).all
       (fun f => !(filterKey f == "document_type")) = true) ∧
    (construct_metadata_filter (some ⟨{ e with role := some "" } :: rest⟩) =
       construct_metadata_filter (some ⟨{ e with role := none } :: rest⟩) ∧
     construct_metadata_filter (some ⟨{ e with role := some "unknown" } :: rest⟩) =
       construct_metadata_filter (some ⟨{ e with role := none } :: rest⟩) ∧
     (outSubs (some ⟨{ e with role := some "" } :: rest⟩)).all
       (fun f => !(filterKey f == "role")) = true) := by
  refine ⟨⟨?_, ?_, ?_⟩, ⟨?_, ?_, ?_⟩, ⟨?_, ?_, ?_⟩⟩ <;>
    first
      | (apply cmf_congr_specLeaves; simp [specLeaves, specLeaf])
      | (rw [outSubs_cons]
         simp only [specLeaves, List.all_append, Bool.and_eq_true]
         refine ⟨⟨?_, ?_⟩, ?_⟩ <;>
           first
             | exact specLeaf_all _ _ _ (fun s => rfl)
             | simp [specLeaf])

/-- Number of fields the claim calls qualifying: present and not equal to
the sentinel `"unknown"`. -/
def presentNotUnknownCount (e : Entity) : Nat :=
  (if e.employee_name.isSome && !(e.employee_name == some "unknown") then 1 else 0) +
    (if e.document_type.isSome && !(e.document_type == some "unknown") then 1 else 0) +
    (if e.role.isSome && !(e.role == some "unknown") then 1 else 0)

/-- Number of fields that pass the builder's guard `value and
value != "unknown"` (present, non-empty, not `"unknown"`). -/
def qualifyingFieldCount (e : Entity) : Nat :=
  (if pyTruthy e.employee_name && pyNeUnknown e.employee_name then 1 else 0) +
    (if pyTruthy e.document_type && pyNeUnknown e.document_type then 1 else 0) +
    (if pyTruthy e.role && pyNeUnknown e.role then 1 else 0)

/-- Whether a filter expression is an `equals` leaf. -/
def isEqualsLeaf : FilterExpression → Bool
  | FilterExpression.equals _ _ => true
  | FilterExpression.andAll _ => false

/-- C10, counterexample: a first record whose only present-and-not-unknown
field is the empty string gives no filter at all, not a one-element
conjunction. -/
theorem claim_C10_counterexample :
    presentNotUnknownCount (Entity.mk none (some "") none) = 1 ∧
    construct_metadata_filter (some ⟨[Entity.mk none (some "") none]⟩) = none :=
  ⟨rfl, rfl⟩

theorem length_specLeaf (k : String) (v : Option String) :
    (specLeaf k v).length = if pyTruthy v && pyNeUnknown v then 1 else 0 := by
  rw [specLeaf_eq_if]
  by_cases h : (pyTruthy v && pyNeUnknown v) = true <;> simp [h]

theorem length_specLeaves (e : Entity) :
    (specLeaves e).length = qualifyingFieldCount e := by
  simp only [specLeaves, qualifyingFieldCount, List.length_append, length_specLeaf]

/-- C10, amended: when the first record has exactly one field passing the
builder's guard (present, non-empty, not `"unknown"`), the output is a
one-element `andAll` conjunction whose sole member is an `equals` leaf,
never a bare leaf. -/
theorem claim_C10_amended (e : Entity) (rest : List Entity)
    (h : qualifyingFieldCount e = 1) :
    (specLeaves e).length = 1 ∧
    construct_metadata_filter (some ⟨e :: rest⟩) =
      some (FilterExpression.andAll (specLeaves e)) ∧
    (specLeaves e).all isEqualsLeaf = true := by
  have hlen : (specLeaves e).length = 1 := by rw [length_specLeaves]; exact h
  refine ⟨hlen, ?_, ?_⟩
  · rw [construct_metadata_filter_cons]
    have hne : ¬ (specLeaves e).isEmpty := by
      cases hsp : specLeaves e with
      | nil => rw [hsp] at hlen; simp at hlen
      | cons a l => simp [hsp]
    simp [hne]
  · simp only [specLeaves, List.all_append, Bool.and_eq_true]
    exact ⟨⟨specLeaf_all _ _ _ (fun s => rfl), specLeaf_all _ _ _ (fun s => rfl)⟩,
      specLeaf_all _ _ _ (fun s => rfl)⟩

/-- C10, witness at a concrete record with one qualifying field. -/
theorem claim_C10_witness :
    (specLeaves (Entity.mk (some "Alex Anderson") none none)).length = 1 ∧
    construct_metadata_filter (some ⟨[Entity.mk (some "Alex Anderson") none none]⟩) =
      some (FilterExpression.andAll (specLeaves (Entity.mk (some "Alex Anderson") none none))) ∧
    (specLeaves (Entity.mk (some "Alex Anderson") none none)).all isEqualsLeaf = true :=
  claim_C10_amended (Entity.mk (some "Alex Anderson") none none) [] rfl

/-- Hashable scalar values of a raw extracted record (the domain on which
the Python `set` of item tuples in `remove_duplicates` is defined). -/
inductive ScalarVal where
  | null : ScalarVal
  | str : String → ScalarVal
  | int : Int → ScalarVal
  | bool : Bool → ScalarVal
deriving DecidableEq, Repr

/-- A raw entity record before validation: a Python dict, embedded as its
list of key-value items (a dict has pairwise distinct keys). -/
abbrev RawEntity := List (String × ScalarVal)

/-- A raw record has the distinct keys every Python dict guarantees. -/
def keysNodup (d : RawEntity) : Prop := (d.map Prod.fst).Nodup

instance rawKeyLETotal :
    IsTotal (String × ScalarVal) (fun a b => a.1 ≤ b.1) :=
  ⟨fun a b => le_total a.1 b.1⟩

instance rawKeyLETrans :
    IsTrans (String × ScalarVal) (fun a b => a.1 ≤ b.1) :=
  ⟨fun _ _ _ hab hbc => le_trans hab hbc⟩

instance rawKeyLTAntisymm :
    IsAntisymm (String × ScalarVal) (fun a b => a.1 < b.1) :=
  ⟨fun _ _ hab hba => absurd (lt_trans hab hba) (lt_irrefl _)⟩

/-- Python's `tuple(sorted(entity.items()))`: the items of a record sorted
by key (a dict's keys are distinct, so key order determines the result). -/
def canon (d : RawEntity) : RawEntity :=
  List.insertionSort (fun a b => a.1 ≤ b.1) d

/-- The loop of `remove_duplicates`: walk the records, keep a `seen` set of
sorted item tuples, and for each unseen record add its tuple to `seen` and
append `dict(entity_tuple)` (the key-sorted record) to the output. -/
def removeDupGo (seen : List RawEntity) : List RawEntity → List RawEntity
  | [] => []
  | e :: rest =>
    if canon e ∈ seen then removeDupGo seen rest
    else canon e :: removeDupGo (canon e :: seen) rest

/-- The `remove_duplicates` validator of `ExtractedEntities`. -/
def remove_duplicates (entities : List RawEntity) : List RawEntity :=
  removeDupGo [] entities

/-- Spec-side deduplication: keep the first occurrence of each record and
drop every later record that is structurally equal to it (equal as a dict,
i.e. equal key-sorted items). -/
def specDedup : List RawEntity → List RawEntity
  | [] => []
  | e :: rest => e :: specDedup (rest.filter (fun x => decide (canon x ≠ canon e)))
termination_by l => l.length
decreasing_by
  simp only [List.length_cons]
  exact Nat.lt_succ_of_le (List.length_filter_le _ _)

theorem removeDupGo_spec (l : List RawEntity) : ∀ seen : List RawEntity,
    removeDupGo seen l =
      (specDedup (l.filter (fun x => decide (canon x ∉ seen)))).map canon := by
  induction l with
  | nil => intro seen; simp [removeDupGo, specDedup]
  | cons e rest ih =>
    intro seen
    by_cases h : canon e ∈ seen
    · have hd : (fun x => decide (canon x ∉ seen)) e = false := by simp [h]
      simp only [removeDupGo, if_pos h, List.filter_cons, hd, Bool.false_eq_true,
        if_neg (by simp : ¬ False)]
      rw [ih seen]
    · have hd : (fun x => decide (canon x ∉ seen)) e = true := by simp [h]
      simp only [removeDupGo, if_neg h, List.filter_cons, hd, if_pos trivial]
      rw [specDedup, ih (canon e :: seen), List.filter_filter]
      simp only [List.map_cons]
      have hfun :
          List.filter (fun x => decide (canon x ∉ canon e :: seen)) rest =
            List.filter (fun a => decide (canon a ≠ canon e) && decide (canon a ∉ seen))
              rest := by
        apply List.filter_congr
        intro x _
        by_cases h1 : canon x = canon e <;> by_cases h2 : canon x ∈ seen <;>
          simp [h1, h2]
      rw [hfun]

theorem canon_perm (d : RawEntity) : (canon d).Perm d :=
  List.perm_insertionSort _ d

theorem canon_keysNodup (d : RawEntity) (h : keysNodup d) : keysNodup (canon d) :=
  ((canon_perm d).map Prod.fst).nodup_iff.mpr h

theorem canon_sorted_strict (d : RawEntity) (h : keysNodup d) :
    (canon d).Sorted (fun a b : String × ScalarVal => a.1 < b.1) := by
  have hs : (canon d).Sorted (fun a b : String × ScalarVal => a.1 ≤ b.1) :=
    List.sorted_insertionSort _ d
  have hpw : (canon d).Pairwise (fun a b : String × ScalarVal => a.1 ≠ b.1) :=
    List.pairwise_map.mp (canon_keysNodup d h)
  exact (List.Pairwise.and hs hpw).imp (fun hab => lt_of_le_of_ne hab.1 hab.2)

theorem canon_eq_iff_perm (d₁ d₂ : RawEntity)
    (h₁ : keysNodup d₁) (h₂ : keysNodup d₂) :
    canon d₁ = canon d₂ ↔ d₁.Perm d₂ := by
  constructor
  · intro h
    exact (canon_perm d₁).symm.trans (h ▸ canon_perm d₂)
  · intro hp
    exact List.eq_of_perm_of_sorted
      ((canon_perm d₁).trans (hp.trans (canon_perm d₂).symm))
      (canon_sorted_strict d₁ h₁) (canon_sorted_strict d₂ h₂)

/-- C5: `remove_duplicates` returns exactly the spec-side deduplication of
its input — the first occurrence of each distinct record kept in input
order, each output record being the key-sorted form of (hence structurally
equal to) the kept input record — where for records with the distinct keys
of a dict, equality of sorted item tuples coincides with structural
equality of the records regardless of field order. -/
theorem claim_C5 :
    (∀ l : List RawEntity, remove_duplicates l = (specDedup l).map canon) ∧
    (∀ d : RawEntity, (canon d).Perm d) ∧
    (∀ d₁ d₂ : RawEntity, keysNodup d₁ → keysNodup d₂ →
      (canon d₁ = canon d₂ ↔ d₁.Perm d₂)) := by
  refine ⟨?_, canon_perm, canon_eq_iff_perm⟩
  intro l
  unfold remove_duplicates
  rw [removeDupGo_spec]
  have hp : (fun x : RawEntity => decide (canon x ∉ ([] : List RawEntity))) =
      fun _ => true := by
    funext x; simp
  rw [hp, List.filter_true]

/-- C5, witness: two records with the same fields in swapped order are
recognized as duplicates of each other. -/
theorem claim_C5_witness :
    canon [("b", ScalarVal.str "x"), ("a", ScalarVal.null)] =
      canon [("a", ScalarVal.null), ("b", ScalarVal.str "x")] :=
  (claim_C5.2.2 [("b", ScalarVal.str "x"), ("a", ScalarVal.null)]
      [("a", ScalarVal.null), ("b", ScalarVal.str "x")]
      (by unfold keysNodup; decide) (by unfold keysNodup; decide)).mpr (by decide)

/-- JSON-like values an extractor tool call can put in a record field. -/
inductive JsonVal where
  | null : JsonVal
  | str : String → JsonVal
  | int : Int → JsonVal
  | bool : Bool → JsonVal
  | arr : List JsonVal → JsonVal
  | obj : List (String × JsonVal) → JsonVal

/-- A raw record as handed to model validation: a dict of field names to
JSON values, embedded as its item list. -/
abbrev RawDict := List (String × JsonVal)

/-- Lookup of a key in a dict's item list (dict keys are distinct, so the
first match is the match). -/
def lookupField : RawDict → String → Option JsonVal
  | [], _ => none
  | (k, v) :: rest, key => if k = key then some v else lookupField rest key

/-- Whether pydantic v1 accepts a value for an `Optional[str]` field:
everything except a list or a dict (absent and `None` become `None`;
strings stay; ints and bools are coerced by `str()`). -/
def isStrCoercible : Option JsonVal → Bool
  | some (JsonVal.arr _) => false
  | some (JsonVal.obj _) => false
  | _ => true

/-- Pydantic v1 validation of one `Optional[str]` field of `Entity`, with
the declared default configuration: a missing key or an explicit `None`
yields `None`, a string is kept, an int or bool is coerced with `str()`,
and a list or dict is rejected with an error naming the field. -/
def validateStrField (field : String) : Option JsonVal → Except String (Option String)
  | none => Except.ok none
  | some JsonVal.null => Except.ok none
  | some (JsonVal.str s) => Except.ok (some s)
  | some (JsonVal.int n) => Except.ok (some (toString n))
  | some (JsonVal.bool b) => Except.ok (some (cond b "True" "False"))
  | some (JsonVal.arr _) => Except.error (field ++ ": str type expected")
  | some (JsonVal.obj _) => Except.error (field ++ ": str type expected")

/-- Pydantic v1 validation of the `Entity` model on a raw dict: validate
the three declared fields in declaration order; keys that name no declared
field are ignored (the default `Extra.ignore` configuration). -/
def Entity.validate (d : RawDict) : Except String Entity :=
  match validateStrField "employee_name" (lookupField d "employee_name") with
  | Except.error e => Except.error e
  | Except.ok en =>
    match validateStrField "document_type" (lookupField d "document_type") with
    | Except.error e => Except.error e
    | Except.ok dt =>
      match validateStrField "role" (lookupField d "role") with
      | Except.error e => Except.error e
      | Except.ok ro => Except.ok (Entity.mk en dt ro)

/-- Whether a validation result is a success. -/
def validationSucceeds : Except String Entity → Bool
  | Except.ok _ => true
  | Except.error _ => false

/-- C6, counterexample: a record carrying the unrecognized field name
`favorite_color` validates successfully with the field silently dropped,
and an integer-valued field is silently coerced to the string `"123"` —
no validation error is raised in either case. -/
theorem claim_C6_counterexample :
    lookupField [("employee_name", JsonVal.str "Alex Anderson"),
        ("favorite_color", JsonVal.str "blue")] "favorite_color" =
      some (JsonVal.str "blue") ∧
    Entity.validate [("employee_name", JsonVal.str "Alex Anderson"),
        ("favorite_color", JsonVal.str "blue")] =
      Except.ok (Entity.mk (some "Alex Anderson") none none) ∧
    Entity.validate [("employee_name", JsonVal.int 123)] =
      Except.ok (Entity.mk (some "123") none none) :=
  ⟨rfl, rfl, rfl⟩

theorem validateStrField_error_of_bad (field : String) (o : Option JsonVal)
    (h : isStrCoercible o = false) :
    validateStrField field o = Except.error (field ++ ": str type expected") := by
  cases o with
  | none => simp [isStrCoercible] at h
  | some v => cases v <;> simp_all [isStrCoercible, validateStrField]

theorem validateStrField_ok_of_good (field : String) (o : Option JsonVal)
    (h : isStrCoercible o = true) :
    ∃ r, validateStrField field o = Except.ok r := by
  cases o with
  | none => exact ⟨none, rfl⟩
  | some v => cases v <;> simp_all [isStrCoercible, validateStrField]

theorem validate_congr (d₁ d₂ : RawDict)
    (h1 : lookupField d₁ "employee_name" = lookupField d₂ "employee_name")
    (h2 : lookupField d₁ "document_type" = lookupField d₂ "document_type")
    (h3 : lookupField d₁ "role" = lookupField d₂ "role") :
    Entity.validate d₁ = Entity.validate d₂ := by
  unfold Entity.validate
  rw [h1, h2, h3]

theorem lookupField_filter (p : String × JsonVal → Bool) (d : RawDict) (key : String)
    (hp : ∀ v, p (key, v) = true) :
    lookupField (d.filter p) key = lookupField d key := by
  induction d with
  | nil => rfl
  | cons kv rest ih =>
    obtain ⟨k, v⟩ := kv
    by_cases hk : k = key
    · subst hk
      rw [List.filter_cons, hp v]
      simp [lookupField]
    · cases hpv : p (k, v) with
      | false =>
        rw [List.filter_cons, hpv]
        simp only [Bool.false_eq_true, if_neg (by simp : ¬ False)]
        rw [ih]
        simp [lookupField, hk]
      | true =>
        rw [List.filter_cons, hpv]
        simp [lookupField, hk, ih]

/-- The predicate keeping exactly the keys `Entity` declares. -/
def recognizedKey (kv : String × JsonVal) : Bool :=
  kv.1 == "employee_name" || kv.1 == "document_type" || kv.1 == "role"

/-- C6, amended: validation of a raw record succeeds exactly when each of
the three declared fields is absent or holds a str-coercible value
(null, string, int, bool); a list- or dict-valued declared field fails
fast with an error naming that field; but unrecognized field names are
silently ignored (removing them changes nothing) and coercible non-string
values are silently converted, per the model's default pydantic v1
configuration. -/
theorem claim_C6_amended :
    (∀ d : RawDict, validationSucceeds (Entity.validate d) =
      (isStrCoercible (lookupField d "employee_name") &&
        isStrCoercible (lookupField d "document_type") &&
        isStrCoercible (lookupField d "role"))) ∧
    (∀ (d : RawDict) (msg : String), Entity.validate d = Except.error msg →
      (msg = "employee_name" ++ ": str type expected" ∧
        isStrCoercible (lookupField d "employee_name") = false) ∨
      (msg = "document_type" ++ ": str type expected" ∧
        isStrCoercible (lookupField d "document_type") = false) ∨
      (msg = "role" ++ ": str type expected" ∧
        isStrCoercible (lookupField d "role") = false)) ∧
    (∀ d : RawDict, Entity.validate (d.filter recognizedKey) = Entity.validate d) := by
  refine ⟨?_, ?_, ?_⟩
  · intro d
    unfold Entity.validate
    cases hc1 : isStrCoercible (lookupField d "employee_name") with
    | false =>
      rw [validateStrField_error_of_bad _ _ hc1]
      simp [validationSucceeds]
    | true =>
      obtain ⟨r1, hr1⟩ := validateStrField_ok_of_good "employee_name" _ hc1
      rw [hr1]
      cases hc2 : isStrCoercible (lookupField d "document_type") with
      | false =>
        rw [validateStrField_error_of_bad _ _ hc2]
        simp [validationSucceeds]
      | true =>
        obtain ⟨r2, hr2⟩ := validateStrField_ok_of_good "document_type" _ hc2
        rw [hr2]
        cases hc3 : isStrCoercible (lookupField d "role") with
        | false =>
          rw [validateStrField_error_of_bad _ _ hc3]
          simp [validationSucceeds]
        | true =>
          obtain ⟨r3, hr3⟩ := validateStrField_ok_of_good "role" _ hc3
          rw [hr3]
          simp [validationSucceeds]
  · intro d msg hmsg
    unfold Entity.validate at hmsg
    cases hc1 : isStrCoercible (lookupField d "employee_name") with
    | false =>
      rw [validateStrField_error_of_bad _ _ hc1] at hmsg
      exact Or.inl ⟨by cases hmsg; rfl, rfl⟩
    | true =>
      obtain ⟨r1, hr1⟩ := validateStrField_ok_of_good "employee_name" _ hc1
      rw [hr1] at hmsg
      cases hc2 : isStrCoercible (lookupField d "document_type") with
      | false =>
        rw [validateStrField_error_of_bad _ _ hc2] at hmsg
        exact Or.inr (Or.inl ⟨by cases hmsg; rfl, rfl⟩)
      | true =>
        obtain ⟨r2, hr2⟩ := validateStrField_ok_of_good "document_type" _ hc2
        rw [hr2] at hmsg
        cases hc3 : isStrCoercible (lookupField d "role") with
        | false =>
          rw [validateStrField_error_of_bad _ _ hc3] at hmsg
          exact Or.inr (Or.inr ⟨by cases hmsg; rfl, rfl⟩)
        | true =>
          obtain ⟨r3, hr3⟩ := validateStrField_ok_of_good "role" _ hc3
          rw [hr3] at hmsg
          cases hmsg
  · intro d
    apply validate_congr <;>
      exact lookupField_filter recognizedKey d _ (fun v => rfl)

/-- C6, witness: a list-valued `role` field fails with an error naming
`role`. -/
theorem claim_C6_witness :
    ("role: str type expected" = "employee_name" ++ ": str type expected" ∧
      isStrCoercible (lookupField [("role", JsonVal.arr [])] "employee_name") = false) ∨
    ("role: str type expected" = "document_type" ++ ": str type expected" ∧
      isStrCoercible (lookupField [("role", JsonVal.arr [])] "document_type") = false) ∨
    ("role: str type expected" = "role" ++ ": str type expected" ∧
      isStrCoercible (lookupField [("role", JsonVal.arr [])] "role") = false) :=
  claim_C6_amended.2.1 [("role", JsonVal.arr [])] "role: str type expected" rfl

/-- C1 amended, witness at a concrete two-field record. -/
theorem claim_C1_amended_witness :
    construct_metadata_filter
        (some ⟨[Entity.mk (some "Alex Anderson") (some "finance") none]⟩) =
      if (specLeaves (Entity.mk (some "Alex Anderson") (some "finance") none)).isEmpty
      then none
      else some (FilterExpression.andAll
        (specLeaves (Entity.mk (some "Alex Anderson") (some "finance") none))) :=
  claim_C1_amended (Entity.mk (some "Alex Anderson") (some "finance") none) []

/-- C4, witness: changing the second record leaves the output unchanged. -/
theorem claim_C4_witness :
    construct_metadata_filter (some ⟨[Entity.mk (some "Alex") none none,
        Entity.mk (some "Jane") (some "finance") none]⟩) =
      construct_metadata_filter (some ⟨[Entity.mk (some "Alex") none none,
        Entity.mk none (some "healthcare") (some "manager")]⟩) :=
  claim_C4 (Entity.mk (some "Alex") none none)
    [Entity.mk (some "Jane") (some "finance") none]
    [Entity.mk none (some "healthcare") (some "manager")]

/-- C7, witness at a concrete input. -/
theorem claim_C7_witness :
    construct_metadata_filter_run (some ⟨[Entity.mk (some "Alex") none none]⟩) =
      Except.ok (construct_metadata_filter (some ⟨[Entity.mk (some "Alex") none none]⟩)) :=
  claim_C7 (some ⟨[Entity.mk (some "Alex") none none]⟩)

/-- C9, witness at a concrete record. -/
theorem claim_C9_witness :
    construct_metadata_filter
        (some ⟨[Entity.mk (some "") (some "finance") (some "manager")]⟩) =
      construct_metadata_filter
        (some ⟨[Entity.mk none (some "finance") (some "manager")]⟩) :=
  (claim_C9 (Entity.mk (some "Alex") (some "finance") (some "manager")) []).1.1
